import Mathlib

/-!
Verification of the dependency-injection code generator core and the
budhttp dev-server client of this repository.

The DI core is modelled from the specification (its package is consumed by
the repository's tests under test as `package/di`); the budhttp client is
embedded from `package/budhttp/client.go`.
-/

namespace DI

/-- Modelled from the spec: canonical type reference of the DI core
(owning import path, local type name, pointer flag). -/
structure TypeRef where
  imp : String
  name : String
  ptr : Bool
deriving DecidableEq

/-- Memoization key of a type reference: import path plus type name. -/
def TypeRef.key (t : TypeRef) : String × String := (t.imp, t.name)

/-- Modelled from the spec: a discovered function declaration. `recv` is the
receiver type for methods (`none` for plain functions), `result` the first
result type, `hasError` whether the declaration also returns an error, and
`runtimeErr` the error value its body returns at runtime (`none` = nil). -/
structure Func where
  imp : String
  name : String
  recv : Option String
  params : List TypeRef
  result : Option TypeRef
  hasError : Bool
  runtimeErr : Option String
deriving DecidableEq

/-- Modelled from the spec: a named struct field. -/
structure Field where
  fname : String
  typ : TypeRef
deriving DecidableEq

/-- Modelled from the spec: a struct type declaration. -/
structure StructDecl where
  imp : String
  sname : String
  fields : List Field
deriving DecidableEq

/-- Modelled from the spec: the per-package declaration record returned by
the declaration index (functions, struct types, interface type names). -/
structure Package where
  funcs : List Func
  structs : List StructDecl
  ifaces : List String
deriving DecidableEq

/-- Modelled from the spec: the declaration index, mapping import paths to
parsed packages. -/
abbrev Index := List (String × Package)

/-- Modelled from the spec: an externally supplied input of the function
descriptor, optionally tagged hoist. -/
structure Param where
  imp : String
  name : String
  ptr : Bool
  hoist : Bool
deriving DecidableEq

/-- Type reference of a parameter. -/
def Param.typeRef (p : Param) : TypeRef := ⟨p.imp, p.name, p.ptr⟩

/-- Modelled from the spec: a dependency slot (a type demand or the error
marker). -/
inductive Dep where
  | typ (t : TypeRef)
  | err
deriving DecidableEq

/-- Modelled from the spec: the function descriptor that is the input to
the core. -/
structure Function where
  fname : String
  target : String
  params : List Param
  results : List Dep
  aliases : List (TypeRef × TypeRef)
  hoist : Bool
deriving DecidableEq

/-- Pointer coercion direction. -/
inductive Coerce where
  | takeAddr
  | deref
deriving DecidableEq

/-- Modelled from the spec: a provider node of the resolved graph. Children
are arena indices. -/
inductive Node where
  | ext (paramIdx : Nat) (t : TypeRef)
  | call (fn : Func) (args : List Nat) (t : TypeRef)
  | lit (t : TypeRef) (fields : List Nat)
  | ident (c : Coerce) (inner : Nat) (t : TypeRef)
  | hoisted (t : TypeRef)
deriving DecidableEq

/-- Resolved type reference carried by a node. -/
def Node.typeOf : Node → TypeRef
  | .ext _ t => t
  | .call _ _ t => t
  | .lit t _ => t
  | .ident _ _ t => t
  | .hoisted t => t

/-- Arena indices of the children of a node. -/
def Node.children : Node → List Nat
  | .call _ args _ => args
  | .lit _ fields => fields
  | .ident _ j _ => [j]
  | _ => []

/-- Whether a node introduces a runtime error obligation. -/
def Node.hasErr : Node → Bool
  | .call c _ _ => c.hasError
  | _ => false

/-- Resolver state: the node arena and the memo table keyed by the full
resolved type reference (import path plus type name). -/
structure St where
  nodes : List Node
  memo : List ((String × String) × Nat)
deriving DecidableEq

/-- Append a node to the arena, returning its index. -/
def push (st : St) (n : Node) : Nat × St :=
  (st.nodes.length, ⟨st.nodes ++ [n], st.memo⟩)

/-- Record a memo entry for a type reference. -/
def memoize (st : St) (t : TypeRef) (i : Nat) : St :=
  ⟨st.nodes, st.memo ++ [(t.key, i)]⟩

/-- Look up a type reference in the memo table. -/
def memoLookup (st : St) (t : TypeRef) : Option Nat :=
  (st.memo.find? (fun e => e.1 == t.key)).map (fun e => e.2)

/-- Find the index of an external parameter exactly matching a demand
(including pointer depth). -/
def findParamFrom : Nat → List Param → TypeRef → Option Nat
  | _, [], _ => none
  | k, q :: qs, t => if q.typeRef = t then some k else findParamFrom (k + 1) qs t

/-- External-input candidate lookup over the descriptor's params. -/
def findParam (ps : List Param) (t : TypeRef) : Option Nat :=
  findParamFrom 0 ps t

/-- Alias-map lookup, keyed by import path and type name. -/
def findAlias (al : List (TypeRef × TypeRef)) (t : TypeRef) : Option TypeRef :=
  (al.find? (fun a => a.1.imp == t.imp && a.1.name == t.name)).map (fun a => a.2)

/-- Look up a package in the declaration index. -/
def lookupPkg (idx : Index) (imp : String) : Option Package :=
  (idx.find? (fun p => p.1 == imp)).map (fun p => p.2)

/-- Constructor candidates for a demand in its owning package: plain
functions (methods with receivers are skipped) whose first result type
names the demanded type, ignoring pointer depth. -/
def ctorsFor (pk : Package) (t : TypeRef) : List Func :=
  pk.funcs.filter (fun f =>
    f.recv == none &&
      match f.result with
      | some r => r.imp == t.imp && r.name == t.name
      | none => false)

/-- Tie-break among constructor candidates: a single candidate wins, and
among several the canonically named `New` is preferred. -/
def pickCtor : List Func → Option Func
  | [] => none
  | [c] => some c
  | cs => cs.find? (fun f => f.name == "New")

/-- Struct declaration for a demand in its owning package. -/
def structFor (pk : Package) (t : TypeRef) : Option StructDecl :=
  pk.structs.find? (fun s => s.sname == t.name)

/-- Whether the demanded name is an interface of its owning package. -/
def isIface (pk : Package) (t : TypeRef) : Bool :=
  pk.ifaces.contains t.name

/-- Single-quote character, used by the stable error strings. -/
def sq : String := String.singleton (Char.ofNat 39)

/-- Stable error string for an interface demand with no provider. -/
def unclearMsg (t : TypeRef) : String :=
  "di: unclear how to provide " ++ sq ++ t.imp ++ sq ++ "." ++ t.name

/-- Stable error string for a missing declaration. -/
def notFoundMsg (t : TypeRef) : String :=
  "di: unable to find declaration for " ++ sq ++ t.imp ++ sq ++ "." ++ t.name

/-- Error string on fuel exhaustion (never hit by the scenarios below). -/
def fuelMsg : String := "di: resolution depth exceeded"

/-- Internal invariant violation marker. -/
def internalMsg : String := "di: internal error"

/-- Error string when a provider can fail but the descriptor declares no
error result. -/
def errUnexpectedMsg : String := "di: function cannot return an error"

/-- Coerce a resolved node to the demanded pointer depth, wrapping it in an
identity node when the depths differ. -/
def coerceTo (st : St) (want : TypeRef) (j : Nat) : Nat × St :=
  match st.nodes.get? j with
  | none => (j, st)
  | some n =>
    if n.typeOf.ptr = want.ptr then (j, st)
    else if want.ptr then push st (Node.ident Coerce.takeAddr j want)
    else push st (Node.ident Coerce.deref j want)

/-- Result type of a chosen constructor (at its actual pointer depth). -/
def resultTy (c : Func) (t : TypeRef) : TypeRef :=
  match c.result with
  | some r => r
  | none => t

/-- Modelled from the spec: the recursive resolver (candidate selection and
graph building for a list of demands). Selection order per the spec:
memoized node, external input, alias redirection, constructor in the owning
package, struct literal, and finally the unclear-provider failure for
interfaces. -/
def resolveL : Nat → Index → DI.Function → St → List TypeRef →
    Except String (List Nat × St)
  | 0, _, _, _, _ => Except.error fuelMsg
  | _ + 1, _, _, st, [] => Except.ok ([], st)
  | fuel + 1, idx, f, st, t :: ts =>
    let step : Except String (Nat × St) :=
      match memoLookup st t with
      | some j => Except.ok (coerceTo st t j)
      | none =>
        match findParam f.params t with
        | some k =>
          let (j, st1) := push st (Node.ext k t)
          Except.ok (j, memoize st1 t j)
        | none =>
          match findAlias f.aliases t with
          | some t2 =>
            match resolveL fuel idx f st [t2] with
            | Except.ok ([j], st1) => Except.ok (j, st1)
            | Except.ok (_, _) => Except.error internalMsg
            | Except.error e => Except.error e
          | none =>
            match lookupPkg idx t.imp with
            | none => Except.error (notFoundMsg t)
            | some pk =>
              match pickCtor (ctorsFor pk t) with
              | some c =>
                match resolveL fuel idx f st c.params with
                | Except.error e => Except.error e
                | Except.ok (args, st1) =>
                  let rt := resultTy c t
                  let (j, st2) := push st1 (Node.call c args rt)
                  Except.ok (coerceTo (memoize st2 t j) t j)
              | none =>
                if isIface pk t then Except.error (unclearMsg t)
                else
                  match structFor pk t with
                  | some s =>
                    match resolveL fuel idx f st (s.fields.map Field.typ) with
                    | Except.error e => Except.error e
                    | Except.ok (args, st1) =>
                      let vt : TypeRef := ⟨t.imp, t.name, false⟩
                      let (j, st2) := push st1 (Node.lit vt args)
                      Except.ok (coerceTo (memoize st2 t j) t j)
                  | none => Except.error (notFoundMsg t)
    match step with
    | Except.error e => Except.error e
    | Except.ok (j, st1) =>
      match resolveL fuel idx f st1 ts with
      | Except.error e => Except.error e
      | Except.ok (js, st2) => Except.ok (j :: js, st2)

/-- Type demands of a result list (dropping the error marker). -/
def typeDeps (ds : List Dep) : List TypeRef :=
  ds.filterMap (fun d => match d with | .typ t => some t | .err => none)

/-- Modelled from the spec: the resolver's output plan — node arena, root
indices for the declared results, emitted parameter types (hoisted inputs
followed by the surviving original params), the hoisted input types, and
whether the signature declares an error result. -/
structure Plan where
  nodes : List Node
  roots : List Nat
  emittedParams : List TypeRef
  hoistedTypes : List TypeRef
  hasErrorResult : Bool
deriving DecidableEq

/-- Modelled from the spec and pinned by the repository's hoisting tests:
bottom-up hoistability of each arena node. An external input is hoistable
iff its parameter is tagged hoist (available to caller-scope setup only);
any other node is hoistable iff all of its children are. A node reaching a
request-scoped (untagged) parameter is therefore not hoistable. -/
def hoistableStep (ps : List Param) (acc : List Bool) : Node → Bool
  | .ext k _ =>
    match ps.get? k with
    | some p => p.hoist
    | none => false
  | .hoisted _ => true
  | n => n.children.all (fun j => (acc.get? j).getD false)

/-- Hoistability of every node of the arena, bottom-up. -/
def hoistableList (ps : List Param) (ns : List Node) : List Bool :=
  ns.foldl (fun acc n => acc ++ [hoistableStep ps acc n]) []

/-- Indices replaced by hoisted inputs: hoistable nodes referenced by a
node that stays in the function body. -/
def hoistedSet (ns : List Node) (hb : List Bool) : List Nat :=
  (List.range ns.length).filter (fun i =>
    (hb.get? i).getD false &&
      ns.enum.any (fun e =>
        !((hb.get? e.1).getD false) && e.2.children.contains i))

/-- Replace every hoisted index by a hoisted-input node. -/
def applyHoist (ns : List Node) (hs : List Nat) : List Node :=
  ns.enum.map (fun e => if hs.contains e.1 then Node.hoisted e.2.typeOf else e.2)

/-- Modelled from the spec: one-shot resolution of a function descriptor
into a plan, including error-result threading and, when the descriptor's
hoist flag is set, the hoist analysis. -/
def resolve (idx : Index) (f : DI.Function) : Except String Plan :=
  match resolveL 100 idx f ⟨[], []⟩ (typeDeps f.results) with
  | Except.error e => Except.error e
  | Except.ok (roots, st) =>
    if st.nodes.any Node.hasErr && !(f.results.contains Dep.err) then
      Except.error errUnexpectedMsg
    else if f.hoist then
      let hb := hoistableList f.params st.nodes
      let hs := hoistedSet st.nodes hb
      let hts := hs.filterMap (fun i => (st.nodes.get? i).map Node.typeOf)
      Except.ok
        ⟨applyHoist st.nodes hs, roots,
          hts ++ (f.params.filter (fun p => !p.hoist)).map Param.typeRef,
          hts, f.results.contains Dep.err⟩
    else
      Except.ok
        ⟨st.nodes, roots, f.params.map Param.typeRef, [],
          f.results.contains Dep.err⟩

/-- Fallback plan used only to read a plan out of a resolution result. -/
def defaultPlan : Plan := ⟨[], [], [], [], false⟩

/-- Plan of a successful resolution. -/
def planOf : Except String Plan → Plan
  | Except.ok p => p
  | Except.error _ => defaultPlan

/-- Runtime value produced by the generated function's body. -/
inductive Value where
  | ext (k : Nat)
  | call (fname : String) (args : List Value)
  | lit (t : TypeRef) (fields : List Value)
  | addr (v : Value)
  | deref (v : Value)

/-- Runtime outcome of an initialization step: an out-of-range arena index
(impossible for well-formed plans) or a constructor's returned error. -/
inductive EvalErr where
  | badIndex
  | goErr (msg : String)
deriving DecidableEq

/-- Look up the already-computed values of a list of child indices. -/
def getVals (acc : List Value) : List Nat → Except EvalErr (List Value)
  | [] => Except.ok []
  | j :: js =>
    match acc.get? j with
    | none => Except.error EvalErr.badIndex
    | some v =>
      match getVals acc js with
      | Except.error e => Except.error e
      | Except.ok vs => Except.ok (v :: vs)

/-- Runtime semantics of one provider node, given the values of all earlier
nodes and the externally supplied inputs. A constructor whose body returns
a non-nil error aborts with that error verbatim. -/
def evalNode (ins : Nat → Value) (acc : List Value) : Node → Except EvalErr Value
  | .ext k _ => Except.ok (ins k)
  | .hoisted _ => Except.ok (ins 0)
  | .call c args _ =>
    match getVals acc args with
    | Except.error e => Except.error e
    | Except.ok vs =>
      match c.runtimeErr with
      | some m => Except.error (EvalErr.goErr m)
      | none => Except.ok (Value.call c.name vs)
  | .lit t fields =>
    match getVals acc fields with
    | Except.error e => Except.error e
    | Except.ok vs => Except.ok (Value.lit t vs)
  | .ident co j _ =>
    match acc.get? j with
    | none => Except.error EvalErr.badIndex
    | some v =>
      Except.ok (match co with
        | Coerce.takeAddr => Value.addr v
        | Coerce.deref => Value.deref v)

/-- Evaluate the arena in emission order, accumulating node values. -/
def evalNodesAux (ins : Nat → Value) (acc : List Value) :
    List Node → Except EvalErr (List Value)
  | [] => Except.ok acc
  | n :: ns =>
    match evalNode ins acc n with
    | Except.error e => Except.error e
    | Except.ok v => evalNodesAux ins (acc ++ [v]) ns

/-- Runtime behavior of the generated function: evaluate every binding in
order and return the first declared result (or the first error). -/
def evalPlan (ins : Nat → Value) (p : Plan) : Except EvalErr Value :=
  match evalNodesAux ins [] p.nodes with
  | Except.error e => Except.error e
  | Except.ok vs =>
    match p.roots.head? with
    | none => Except.error EvalErr.badIndex
    | some r =>
      match vs.get? r with
      | none => Except.error EvalErr.badIndex
      | some v => Except.ok v

/-- Default external inputs used when evaluating concrete plans. -/
def extIns : Nat → Value := fun k => Value.ext k

/-- Every child index of every node refers to an earlier node (checked
relative to the number of nodes preceding the list). -/
def childrenBounded : Nat → List Node → Bool
  | _, [] => true
  | k, n :: ns => n.children.all (fun j => decide (j < k)) && childrenBounded (k + 1) ns

/-- Arena well-formedness: children always precede their parent. -/
def wfNodes (ns : List Node) : Bool := childrenBounded 0 ns

/-- A node that cannot fail at runtime. -/
def notFailing : Node → Bool
  | .call c _ _ => c.runtimeErr.isNone
  | _ => true

/-- Model consistency: a constructor may only return a runtime error when
its declaration has an error result. -/
def runtimeConsistent (ns : List Node) : Bool :=
  ns.all (fun n =>
    match n with
    | .call c _ _ => !c.runtimeErr.isSome || c.hasError
    | _ => true)

/-- The error of the first provider in emission order whose constructor
returns a non-nil error at runtime. -/
def firstRuntimeErr : List Node → Option String
  | [] => none
  | Node.call c _ _ :: ns =>
    match c.runtimeErr with
    | some m => some m
    | none => firstRuntimeErr ns
  | _ :: ns => firstRuntimeErr ns

/-- Fuelled reachability: whether node `i` transitively reaches an external
input whose parameter is tagged as `want`. This is the path-based
characterization used by the theorems, independent of the bottom-up fold
performed by the analyzer. -/
def reachesParamTag (ps : List Param) (ns : List Node) : Nat → Nat → Bool → Bool
  | 0, _, _ => false
  | fuel + 1, i, want =>
    match ns.get? i with
    | none => false
    | some (Node.ext k _) =>
      match ps.get? k with
      | some p => p.hoist == want
      | none => false
    | some n => n.children.any (fun j => reachesParamTag ps ns fuel j want)

/-! Concrete scenarios, modelled from the repository's DI tests. -/

/-- Interface demand with a same-package constructor returning the
interface and no alias (the TestInterfaceInput scenario). -/
def defaultCtor : Func :=
  ⟨"app.com/web", "Default", none, [], some ⟨"app.com/web", "Log", false⟩, false, none⟩

/-- Declaration index of the TestInterfaceInput scenario. -/
def ifaceInputIdx : Index :=
  [("app.com/web",
    ⟨[defaultCtor],
     [⟨"app.com/web", "log", [⟨"d", ⟨"", "string", false⟩⟩]⟩],
     ["Log"]⟩)]

/-- Descriptor of the TestInterfaceInput scenario: demand the interface
`Log` of package `app.com/web`, no params, no aliases. -/
def ifaceInputFn : DI.Function :=
  ⟨"Load", "app.com/gen/web", [], [Dep.typ ⟨"app.com/web", "Log", false⟩], [], false⟩

/-- Resolved plan of the TestInterfaceInput scenario. -/
def ifaceInputPlan : Plan := planOf (resolve ifaceInputIdx ifaceInputFn)

/-- Constructor of the aliased concrete implementation in the TestV8Alias
scenario. -/
def v8LoadCtor : Func :=
  ⟨"app.com/js/v8", "Load", none, [], some ⟨"app.com/js/v8", "VM", true⟩, true, none⟩

/-- Constructor of the controller in the TestV8Alias scenario. -/
def webLoadCtor : Func :=
  ⟨"app.com/web", "Load", none, [⟨"app.com/js", "VM", false⟩],
    some ⟨"app.com/web", "Controller", true⟩, false, none⟩

/-- Declaration index of the TestV8Alias scenario. -/
def v8AliasIdx : Index :=
  [("app.com/js", ⟨[], [], ["VM"]⟩),
   ("app.com/js/v8", ⟨[v8LoadCtor], [⟨"app.com/js/v8", "VM", []⟩], []⟩),
   ("app.com/web",
    ⟨[webLoadCtor],
     [⟨"app.com/web", "Controller", [⟨"VM", ⟨"app.com/js", "VM", false⟩⟩]⟩],
     []⟩)]

/-- Descriptor of the TestV8Alias scenario: interface `js.VM` aliased to
the concrete `js/v8.*VM`. -/
def v8AliasFn : DI.Function :=
  ⟨"Load", "app.com/gen/web", [],
    [Dep.typ ⟨"app.com/web", "Controller", true⟩, Dep.err],
    [(⟨"app.com/js", "VM", false⟩, ⟨"app.com/js/v8", "VM", true⟩)], false⟩

/-- Resolved plan of the TestV8Alias scenario. -/
def v8AliasPlan : Plan := planOf (resolve v8AliasIdx v8AliasFn)

/-- Declaration index of the TestInterfaceErrorUnclear scenario: package
`app.com/js` declares only the interface `VM`; the controller struct
demands it. -/
def unclearIdx : Index :=
  [("app.com/js", ⟨[], [], ["VM"]⟩),
   ("app.com/web",
    ⟨[], [⟨"app.com/web", "Controller", [⟨"VM", ⟨"app.com/js", "VM", false⟩⟩]⟩], []⟩)]

/-- Descriptor of the TestInterfaceErrorUnclear scenario, over an arbitrary
parameter list. -/
def unclearFn (ps : List Param) : DI.Function :=
  ⟨"Load", "app.com/gen/web", ps, [Dep.typ ⟨"app.com/web", "Controller", true⟩], [], false⟩

/-- The pinned error string for the unsatisfiable `js.VM` demand. -/
def unclearVM : String := unclearMsg ⟨"app.com/js", "VM", false⟩

/-- Constructor `LoadDB` of the TestHoistable scenario (depends on the
hoist-tagged `context.Context` parameter and can fail). -/
def loadDBCtor : Func :=
  ⟨"app.com/web", "LoadDB", none, [⟨"context", "Context", false⟩],
    some ⟨"app.com/web", "DB", true⟩, true, none⟩

/-- Declaration index of the TestHoistable scenario. -/
def hoistableIdx : Index :=
  [("app.com/web",
    ⟨[loadDBCtor],
     [⟨"app.com/web", "DB",
        [⟨"URL", ⟨"", "string", false⟩⟩, ⟨"Loaded", ⟨"", "int", false⟩⟩]⟩,
      ⟨"app.com/web", "Request", [⟨"Path", ⟨"", "string", false⟩⟩]⟩,
      ⟨"app.com/web", "Session",
        [⟨"DB", ⟨"app.com/web", "DB", true⟩⟩,
         ⟨"Request", ⟨"app.com/web", "Request", true⟩⟩]⟩,
      ⟨"app.com/web", "Web",
        [⟨"Session", ⟨"app.com/web", "Session", true⟩⟩,
         ⟨"DB", ⟨"app.com/web", "DB", true⟩⟩]⟩],
     []⟩)]

/-- Parameters of the TestHoistable scenario: a hoist-tagged
`context.Context` and a request-scoped `*web.Request`. -/
def hoistableParams : List Param :=
  [⟨"context", "Context", false, true⟩, ⟨"app.com/web", "Request", true, false⟩]

/-- Descriptor of the TestHoistable scenario. -/
def hoistableFn : DI.Function :=
  ⟨"Load", "app.com/gen/web", hoistableParams,
    [Dep.typ ⟨"app.com/web", "Web", true⟩, Dep.err], [], true⟩

/-- Resolved (hoist-analyzed) plan of the TestHoistable scenario. -/
def hoistablePlan : Plan := planOf (resolve hoistableIdx hoistableFn)

/-- Node arena of the TestHoistable scenario before hoisting (resolution
with the hoist flag cleared). -/
def hoistablePre : Plan :=
  planOf (resolve hoistableIdx
    ⟨"Load", "app.com/gen/web", hoistableParams,
      [Dep.typ ⟨"app.com/web", "Web", true⟩, Dep.err], [], false⟩)

/-- Constructors of the TestHoistFull scenario. -/
def newEnvCtor : Func :=
  ⟨"app.com/web", "NewEnv", none, [], some ⟨"app.com/web", "Env", true⟩, false, none⟩

/-- Constructor `NewLog` of the TestHoistFull scenario. -/
def newLogCtor : Func :=
  ⟨"app.com/web", "NewLog", none, [⟨"app.com/web", "Env", true⟩],
    some ⟨"app.com/web", "Log", true⟩, false, none⟩

/-- Declaration index of the TestHoistFull scenario. -/
def hoistFullIdx : Index :=
  [("app.com/web",
    ⟨[newEnvCtor, newLogCtor],
     [⟨"app.com/web", "Env", [⟨"value", ⟨"", "string", false⟩⟩]⟩,
      ⟨"app.com/web", "Postgres", [⟨"Log", ⟨"app.com/web", "Log", true⟩⟩]⟩,
      ⟨"app.com/web", "Request", []⟩,
      ⟨"app.com/web", "Workflow", [⟨"Log", ⟨"app.com/web", "Log", true⟩⟩]⟩,
      ⟨"app.com/web", "Session",
        [⟨"Request", ⟨"app.com/web", "Request", true⟩⟩,
         ⟨"DB", ⟨"app.com/web", "Postgres", true⟩⟩]⟩,
      ⟨"app.com/web", "Web",
        [⟨"Session", ⟨"app.com/web", "Session", true⟩⟩,
         ⟨"Log", ⟨"app.com/web", "Log", true⟩⟩,
         ⟨"Workflow", ⟨"app.com/web", "Workflow", true⟩⟩]⟩],
     []⟩)]

/-- Parameters of the TestHoistFull scenario: a single request-scoped
`*web.Request`. -/
def hoistFullParams : List Param := [⟨"app.com/web", "Request", true, false⟩]

/-- Descriptor of the TestHoistFull scenario. -/
def hoistFullFn : DI.Function :=
  ⟨"Load", "app.com/gen/web", hoistFullParams,
    [Dep.typ ⟨"app.com/web", "Web", true⟩], [], true⟩

/-- Resolved (hoist-analyzed) plan of the TestHoistFull scenario. -/
def hoistFullPlan : Plan := planOf (resolve hoistFullIdx hoistFullFn)

/-- Constructor returning `*Middleware` in the TestFunctionNeedsDeref
scenario. -/
def middlewaresPtrCtor : Func :=
  ⟨"app.com/web", "Middlewares", none, [],
    some ⟨"app.com/web", "Middleware", true⟩, false, none⟩

/-- Constructor `New` demanding a `Middleware` value. -/
def newWebDerefCtor : Func :=
  ⟨"app.com/web", "New", none, [⟨"app.com/web", "Middleware", false⟩],
    some ⟨"app.com/web", "Web", true⟩, false, none⟩

/-- Declaration index of the TestFunctionNeedsDeref scenario. -/
def derefIdx : Index :=
  [("app.com/web",
    ⟨[middlewaresPtrCtor, newWebDerefCtor],
     [⟨"app.com/web", "Middleware", [⟨"v", ⟨"", "string", false⟩⟩]⟩,
      ⟨"app.com/web", "Web", [⟨"m", ⟨"app.com/web", "Middleware", false⟩⟩]⟩],
     []⟩)]

/-- Constructor returning a `Middleware` value in the
TestFunctionNeedsPointer scenario. -/
def middlewaresValCtor : Func :=
  ⟨"app.com/web", "Middlewares", none, [],
    some ⟨"app.com/web", "Middleware", false⟩, false, none⟩

/-- Constructor `New` demanding a `*Middleware`. -/
def newWebPtrCtor : Func :=
  ⟨"app.com/web", "New", none, [⟨"app.com/web", "Middleware", true⟩],
    some ⟨"app.com/web", "Web", true⟩, false, none⟩

/-- Declaration index of the TestFunctionNeedsPointer scenario. -/
def ptrIdx : Index :=
  [("app.com/web",
    ⟨[middlewaresValCtor, newWebPtrCtor],
     [⟨"app.com/web", "Middleware", [⟨"v", ⟨"", "string", false⟩⟩]⟩,
      ⟨"app.com/web", "Web", [⟨"m", ⟨"app.com/web", "Middleware", true⟩⟩]⟩],
     []⟩)]

/-- Shared descriptor demanding `*web.Web` with no params or aliases. -/
def webOnlyFn : DI.Function :=
  ⟨"Load", "app.com/gen/web", [], [Dep.typ ⟨"app.com/web", "Web", true⟩], [], false⟩

/-- Resolved plan of the TestFunctionNeedsDeref scenario. -/
def derefPlan : Plan := planOf (resolve derefIdx webOnlyFn)

/-- Resolved plan of the TestFunctionNeedsPointer scenario. -/
def ptrPlan : Plan := planOf (resolve ptrIdx webOnlyFn)

/-- Constructors of the shared-subgraph scenario (trimmed from
TestFunctionAll): `env` is demanded along two paths. -/
def envNewCtor : Func :=
  ⟨"app.com/env", "New", none, [], some ⟨"app.com/env", "Env", true⟩, false, none⟩

/-- Constructor of `log` depending on `env`. -/
def logNewCtor : Func :=
  ⟨"app.com/log", "New", none, [⟨"app.com/env", "Env", true⟩],
    some ⟨"app.com/log", "Log", true⟩, false, none⟩

/-- Constructor of `db` depending on `env` and `log`. -/
def dbNewCtor : Func :=
  ⟨"app.com/db", "New", none,
    [⟨"app.com/env", "Env", true⟩, ⟨"app.com/log", "Log", true⟩],
    some ⟨"app.com/db", "DB", true⟩, false, none⟩

/-- Constructor of `web` depending on `log` and `db`. -/
def webNewCtor : Func :=
  ⟨"app.com/web", "New", none,
    [⟨"app.com/log", "Log", true⟩, ⟨"app.com/db", "DB", true⟩],
    some ⟨"app.com/web", "Web", true⟩, false, none⟩

/-- Declaration index of the shared-subgraph scenario. -/
def sharedIdx : Index :=
  [("app.com/env", ⟨[envNewCtor], [⟨"app.com/env", "Env", []⟩], []⟩),
   ("app.com/log", ⟨[logNewCtor], [⟨"app.com/log", "Log", []⟩], []⟩),
   ("app.com/db", ⟨[dbNewCtor], [⟨"app.com/db", "DB", []⟩], []⟩),
   ("app.com/web", ⟨[webNewCtor], [⟨"app.com/web", "Web", []⟩], []⟩)]

/-- Resolved plan of the shared-subgraph scenario. -/
def sharedPlan : Plan := planOf (resolve sharedIdx webOnlyFn)

/-- Constructor of the first `comments` package (TestDuplicates). -/
def comments1Ctor : Func :=
  ⟨"app.com/comments", "New", none, [],
    some ⟨"app.com/comments", "Comment", true⟩, false, none⟩

/-- Constructor of the second `comments` package, same package base name
and type name, different import path. -/
def comments2Ctor : Func :=
  ⟨"app.com/posts/comments", "New", none, [],
    some ⟨"app.com/posts/comments", "Comment", true⟩, false, none⟩

/-- Constructor of the controller demanding both `Comment` types. -/
def dupCtrlCtor : Func :=
  ⟨"app.com/controller", "New", none,
    [⟨"app.com/comments", "Comment", true⟩, ⟨"app.com/posts/comments", "Comment", true⟩],
    some ⟨"app.com/controller", "Controller", true⟩, false, none⟩

/-- Declaration index of the TestDuplicates scenario. -/
def dupIdx : Index :=
  [("app.com/comments", ⟨[comments1Ctor], [⟨"app.com/comments", "Comment", []⟩], []⟩),
   ("app.com/posts/comments",
    ⟨[comments2Ctor], [⟨"app.com/posts/comments", "Comment", []⟩], []⟩),
   ("app.com/controller",
    ⟨[dupCtrlCtor], [⟨"app.com/controller", "Controller", []⟩], []⟩)]

/-- Descriptor of the TestDuplicates scenario. -/
def dupFn : DI.Function :=
  ⟨"Load", "app.com/gen/web", [],
    [Dep.typ ⟨"app.com/controller", "Controller", true⟩], [], false⟩

/-- Resolved plan of the TestDuplicates scenario. -/
def dupPlan : Plan := planOf (resolve dupIdx dupFn)

/-- Infallible constructor of the TestErrorResultNoError scenario. -/
def newWebNoErrCtor : Func :=
  ⟨"app.com/web", "New", none, [], some ⟨"app.com/web", "Web", true⟩, false, none⟩

/-- Declaration index of the TestErrorResultNoError scenario. -/
def noErrIdx : Index :=
  [("app.com/web", ⟨[newWebNoErrCtor], [⟨"app.com/web", "Web", []⟩], []⟩)]

/-- Descriptor declaring an error result although nothing can fail. -/
def noErrFn : DI.Function :=
  ⟨"Load", "app.com/gen/web", [],
    [Dep.typ ⟨"app.com/web", "Web", true⟩, Dep.err], [], false⟩

/-- Resolved plan of the TestErrorResultNoError scenario. -/
def noErrPlan : Plan := planOf (resolve noErrIdx noErrFn)

/-- The pinned error message of the failing `env.New` constructor in the
TestFunctionHasError scenario. -/
def envErrMsg : String := "env: unable to load environment"

/-- Failing constructor of the TestFunctionHasError scenario. -/
def envNewErrCtor : Func :=
  ⟨"app.com/env", "New", none, [], some ⟨"app.com/env", "Env", true⟩, true,
    some envErrMsg⟩

/-- Fallible (but succeeding) log constructor of the same scenario. -/
def logNewErrCtor : Func :=
  ⟨"app.com/log", "New", none, [⟨"app.com/env", "Env", true⟩],
    some ⟨"app.com/log", "Log", true⟩, true, none⟩

/-- Infallible web constructor of the same scenario. -/
def webNewErrCtor : Func :=
  ⟨"app.com/web", "New", none, [⟨"app.com/log", "Log", true⟩],
    some ⟨"app.com/web", "Web", true⟩, false, none⟩

/-- Declaration index of the TestFunctionHasError scenario: the failing
constructor is nested two levels below the root. -/
def hasErrIdx : Index :=
  [("app.com/env", ⟨[envNewErrCtor], [⟨"app.com/env", "Env", []⟩], []⟩),
   ("app.com/log", ⟨[logNewErrCtor], [⟨"app.com/log", "Log", []⟩], []⟩),
   ("app.com/web", ⟨[webNewErrCtor], [⟨"app.com/web", "Web", []⟩], []⟩)]

/-- Resolved plan of the TestFunctionHasError scenario. -/
def hasErrPlan : Plan := planOf (resolve hasErrIdx noErrFn)

/-- Method with a receiver returning `*Parser` in the TestSkipMethods
scenario; its result type matches the demand but it must be skipped. -/
def parserMethod : Func :=
  ⟨"app.com/parser", "Parser", some "Package", [],
    some ⟨"app.com/parser", "Parser", true⟩, false, none⟩

/-- Plain constructor `New` of the TestSkipMethods scenario. -/
def parserNewCtor : Func :=
  ⟨"app.com/parser", "New", none, [], some ⟨"app.com/parser", "Parser", true⟩, false, none⟩

/-- Declaration index of the TestSkipMethods scenario; it declares both
the method and the plain constructor. -/
def skipIdx : Index :=
  [("app.com/parser",
    ⟨[parserMethod, parserNewCtor],
     [⟨"app.com/parser", "Parser", [⟨"message", ⟨"", "string", false⟩⟩]⟩,
      ⟨"app.com/parser", "Package", []⟩],
     []⟩)]

/-- Descriptor of the TestSkipMethods scenario. -/
def skipFn : DI.Function :=
  ⟨"Load", "app.com/gen/web", [], [Dep.typ ⟨"app.com/parser", "Parser", true⟩], [], false⟩

/-- Resolved plan of the TestSkipMethods scenario. -/
def skipPlan : Plan := planOf (resolve skipIdx skipFn)

/-- Node arena of the TestHoistFull scenario before hoisting. -/
def hoistFullPre : Plan :=
  planOf (resolve hoistFullIdx
    ⟨"Load", "app.com/gen/web", hoistFullParams,
      [Dep.typ ⟨"app.com/web", "Web", true⟩], [], false⟩)

/-- Whether a node is a hoisted input. -/
def isHoistedNode : Node → Bool
  | .hoisted _ => true
  | _ => false

/-- Checks, over a whole arena, that a node is replaced by a hoisted input
exactly when it reaches no request-scoped (hoist=false) parameter and is
consumed by a node that stays in the body (one that does reach such a
parameter). `pre` is the arena before hoisting, `post` after. -/
def hoistCheck (ps : List Param) (pre post : List Node) : Bool :=
  (List.range pre.length).all (fun i =>
    ((post.get? i).elim false isHoistedNode) ==
      (!(reachesParamTag ps pre pre.length i false) &&
        pre.enum.any (fun e =>
          reachesParamTag ps pre pre.length e.1 false && e.2.children.contains i)))

/-- Every identity node wraps a node of the same type whose pointer depth
differs by exactly one, in the matching direction. -/
def identOk (ns : List Node) : Bool :=
  ns.all (fun n =>
    match n with
    | .ident c j t =>
      match ns.get? j with
      | some m =>
        m.typeOf.imp == t.imp && m.typeOf.name == t.name &&
          m.typeOf.ptr != t.ptr &&
          c == (if t.ptr then Coerce.takeAddr else Coerce.deref)
      | none => false
    | _ => true)

/-- Whether an arena contains a synthesized struct literal. -/
def hasLit (ns : List Node) : Bool :=
  ns.any (fun n => match n with | .lit _ _ => true | _ => false)

/-- Number of provider nodes (constructor calls or struct literals) whose
resolved type has the given import path and name. -/
def countKey (ns : List Node) (k : String × String) : Nat :=
  (ns.filter (fun n =>
    match n with
    | .call _ _ t => t.key == k
    | .lit t _ => t.key == k
    | _ => false)).length

/-- Number of provider nodes whose resolved type has the given name,
regardless of import path. -/
def countName (ns : List Node) (s : String) : Nat :=
  (ns.filter (fun n =>
    match n with
    | .call _ _ t => t.name == s
    | .lit t _ => t.name == s
    | _ => false)).length

/-- Number of nodes that consume node `i` as a child. -/
def parentsOf (ns : List Node) (i : Nat) : Nat :=
  (ns.filter (fun n => n.children.contains i)).length

end DI

namespace Budhttp

/-- Opaque stand-in for the `log.Log` argument of the client loaders. -/
structure Log where
  id : Nat
deriving DecidableEq

/-- A budhttp client: the discard client returned for an empty address, or
a dev-server client with its base URL. -/
inductive Client where
  | discard
  | client (baseURL : String)
deriving DecidableEq

/-- Sentinel errors observable through the standard error-unwrap chain. -/
inductive Sentinel where
  | errNotExist
deriving DecidableEq

/-- A Go error value: its message and the sentinel it wraps, if any. -/
structure GoError where
  msg : String
  wrapped : Option Sentinel
deriving DecidableEq

/-- Semantics of `errors.Is(err, fs.ErrNotExist)`. -/
def errorIsNotExist (e : GoError) : Bool :=
  e.wrapped == some Sentinel.errNotExist

/-- The `fs.ErrNotExist` sentinel error. -/
def fsErrNotExist : GoError := ⟨"file does not exist", some Sentinel.errNotExist⟩

/-- `Try` from `package/budhttp/client.go`: an empty address yields the
discard client with a nil error; otherwise the result of `Load` on the
address. `Load` is the external collaborator performing URL parsing and
transport creation. -/
def Try (lg : Log) (load : Log → String → Except GoError Client)
    (addr : String) : Except GoError Client :=
  if addr = "" then Except.ok Client.discard
  else load lg addr

/-- An HTTP response received from the dev server. -/
structure Response where
  status : Nat
  body : String
deriving DecidableEq

/-- A virtual file decoded from a response body. -/
inductive File where
  | mk (content : String)
deriving DecidableEq

/-- Rendering of Go's `%q` verb. -/
def quoteStr (s : String) : String := "\"" ++ s ++ "\""

/-- `(*client).Open` from `package/budhttp/client.go`, given the response
received for `GET <base>/open/<name>`: a 404 wraps `fs.ErrNotExist`, any
other non-200 status is an unexpected-status error, and a 200 body is
decoded by `virtual.UnmarshalJSON` (the external collaborator `um`). -/
def Open (um : String → Except GoError File) (name : String)
    (res : Response) : Except GoError File :=
  if res.status ≠ 200 then
    if res.status = 404 then
      Except.error
        ⟨"budhttp: open " ++ quoteStr name ++ ". " ++ fsErrNotExist.msg,
          some Sentinel.errNotExist⟩
    else
      Except.error
        ⟨"budhttp: open returned unexpected " ++ toString res.status ++ ". " ++ res.body,
          none⟩
  else um res.body

/-- A stand-in loader used to instantiate the `Try` theorem. -/
def loadStub : Log → String → Except GoError Client :=
  fun _ addr => Except.ok (Client.client addr)

/-- A stand-in JSON decoder used to instantiate the `Open` theorem. -/
def umStub : String → Except GoError File :=
  fun s => Except.ok (File.mk s)

end Budhttp

open DI

/-- A parameter list none of whose entries matches a demand yields no
external-input candidate. -/
theorem findParamFrom_eq_none (t : TypeRef) :
    ∀ (ps : List Param) (k : Nat), (∀ q ∈ ps, q.typeRef ≠ t) →
      findParamFrom k ps t = none := by
  intro ps
  induction ps with
  | nil => intro k _; rfl
  | cons q qs ih =>
    intro k h
    have hq : q.typeRef ≠ t := h q (List.mem_cons_self q qs)
    simp only [findParamFrom, if_neg hq]
    exact ih (k + 1) (fun r hr => h r (List.mem_cons_of_mem q hr))

/-- Resolution of the unclear-interface scenario, for any fuel and any
parameter list offering neither the controller nor the interface. -/
theorem resolve_unclear_aux (ps : List Param) (fuel : Nat)
    (h1 : findParam ps ⟨"app.com/web", "Controller", true⟩ = none)
    (h2 : findParam ps ⟨"app.com/js", "VM", false⟩ = none) :
    resolveL (fuel + 2) unclearIdx (unclearFn ps) ⟨[], []⟩
      [⟨"app.com/web", "Controller", true⟩] = Except.error unclearVM := by
  simp [resolveL, memoLookup, findAlias, lookupPkg, ctorsFor, pickCtor,
    structFor, isIface, unclearIdx, unclearFn, h1, h2, unclearVM, Field.typ]

/-- Whole-run version of the previous lemma. -/
theorem resolve_unclear (ps : List Param)
    (h1 : findParam ps ⟨"app.com/web", "Controller", true⟩ = none)
    (h2 : findParam ps ⟨"app.com/js", "VM", false⟩ = none) :
    resolve unclearIdx (unclearFn ps) = Except.error unclearVM := by
  unfold resolve
  rw [show typeDeps (unclearFn ps).results =
    [⟨"app.com/web", "Controller", true⟩] from rfl]
  rw [show (100 : Nat) = 98 + 2 from rfl]
  rw [resolve_unclear_aux ps 98 h1 h2]

/-- Child lookups succeed when every index is in range. -/
theorem getVals_ok (acc : List Value) :
    ∀ js : List Nat, (∀ j ∈ js, j < acc.length) →
      ∃ vs, getVals acc js = Except.ok vs := by
  intro js
  induction js with
  | nil => intro _; exact ⟨[], rfl⟩
  | cons j js ih =>
    intro h
    have hj : j < acc.length := h j (List.mem_cons_self j js)
    obtain ⟨vs, hvs⟩ := ih (fun r hr => h r (List.mem_cons_of_mem j hr))
    have hg : acc[j]? = some acc[j] := List.getElem?_eq_getElem hj
    exact ⟨acc[j] :: vs, by simp [getVals, hg, hvs]⟩

/-- A node whose children are all in range and whose constructor does not
fail evaluates to a value. -/
theorem evalNode_ok (ins : Nat → Value) (acc : List Value) (n : Node)
    (hb : ∀ j ∈ n.children, j < acc.length)
    (hnf : notFailing n = true) :
    ∃ v, evalNode ins acc n = Except.ok v := by
  cases n with
  | ext k t => exact ⟨ins k, rfl⟩
  | hoisted t => exact ⟨ins 0, rfl⟩
  | call c args t =>
    obtain ⟨vs, hvs⟩ := getVals_ok acc args (by simpa [Node.children] using hb)
    have hre : c.runtimeErr = none := by
      simpa [notFailing, Option.isNone_iff_eq_none] using hnf
    exact ⟨Value.call c.name vs, by simp [evalNode, hvs, hre]⟩
  | lit t fs =>
    obtain ⟨vs, hvs⟩ := getVals_ok acc fs (by simpa [Node.children] using hb)
    exact ⟨Value.lit t vs, by simp [evalNode, hvs]⟩
  | ident co j t =>
    have hj : j < acc.length := hb j (by simp [Node.children])
    have hg : acc[j]? = some acc[j] := List.getElem?_eq_getElem hj
    cases co with
    | takeAddr => exact ⟨Value.addr acc[j], by simp [evalNode, hg]⟩
    | deref => exact ⟨Value.deref acc[j], by simp [evalNode, hg]⟩

/-- Evaluation of a well-formed arena with no failing constructor
succeeds, producing one value per node. -/
theorem evalAux_ok (ins : Nat → Value) :
    ∀ (ns : List Node) (acc : List Value),
      childrenBounded acc.length ns = true →
      (∀ n ∈ ns, notFailing n = true) →
      ∃ vs, evalNodesAux ins acc ns = Except.ok vs ∧
        vs.length = acc.length + ns.length := by
  intro ns
  induction ns with
  | nil => intro acc _ _; exact ⟨acc, rfl, by simp [evalNodesAux]⟩
  | cons n ns ih =>
    intro acc hcb hnf
    simp only [childrenBounded] at hcb
    obtain ⟨hb1, hb2⟩ := Bool.and_eq_true_iff.mp hcb
    have hbl : ∀ j ∈ n.children, j < acc.length := fun j hj =>
      of_decide_eq_true (List.all_eq_true.mp hb1 j hj)
    obtain ⟨v, hv⟩ := evalNode_ok ins acc n hbl (hnf n (List.mem_cons_self n ns))
    have hcb2 : childrenBounded (acc ++ [v]).length ns = true := by
      simpa [List.length_append] using hb2
    obtain ⟨vs, hvs, hlen⟩ :=
      ih (acc ++ [v]) hcb2 (fun m hm => hnf m (List.mem_cons_of_mem n hm))
    refine ⟨vs, ?_, ?_⟩
    · simp [evalNodesAux, hv, hvs]
    · simp only [List.length_append, List.length_cons, List.length_nil]
        at hlen ⊢
      omega

/-- Evaluation of a well-formed arena stops at the first failing
constructor and returns its error unmodified. -/
theorem evalAux_err (ins : Nat → Value) :
    ∀ (ns : List Node) (acc : List Value) (m : String),
      childrenBounded acc.length ns = true →
      firstRuntimeErr ns = some m →
      evalNodesAux ins acc ns = Except.error (EvalErr.goErr m) := by
  intro ns
  induction ns with
  | nil => intro acc m _ hm; simp [firstRuntimeErr] at hm
  | cons n ns ih =>
    intro acc m hcb hm
    simp only [childrenBounded] at hcb
    obtain ⟨hb1, hb2⟩ := Bool.and_eq_true_iff.mp hcb
    have hbl : ∀ j ∈ n.children, j < acc.length := fun j hj =>
      of_decide_eq_true (List.all_eq_true.mp hb1 j hj)
    have hb2' : ∀ v : Value, childrenBounded (acc ++ [v]).length ns = true := by
      intro v; simpa [List.length_append] using hb2
    cases n with
    | call c args t =>
      obtain ⟨vs, hvs⟩ := getVals_ok acc args (by simpa [Node.children] using hbl)
      cases hre : c.runtimeErr with
      | some m2 =>
        have hmm : m2 = m := by simpa [firstRuntimeErr, hre] using hm
        subst hmm
        simp [evalNodesAux, evalNode, hvs, hre]
      | none =>
        have hm' : firstRuntimeErr ns = some m := by
          simpa [firstRuntimeErr, hre] using hm
        have hv : evalNode ins acc (Node.call c args t) =
            Except.ok (Value.call c.name vs) := by simp [evalNode, hvs, hre]
        rw [evalNodesAux, hv]
        exact ih (acc ++ [Value.call c.name vs]) m (hb2' _) hm'
    | ext k t =>
      have hm' : firstRuntimeErr ns = some m := by
        simpa [firstRuntimeErr] using hm
      rw [evalNodesAux, show evalNode ins acc (Node.ext k t) =
        Except.ok (ins k) from rfl]
      exact ih (acc ++ [ins k]) m (hb2' _) hm'
    | hoisted t =>
      have hm' : firstRuntimeErr ns = some m := by
        simpa [firstRuntimeErr] using hm
      rw [evalNodesAux, show evalNode ins acc (Node.hoisted t) =
        Except.ok (ins 0) from rfl]
      exact ih (acc ++ [ins 0]) m (hb2' _) hm'
    | lit t fs =>
      have hm' : firstRuntimeErr ns = some m := by
        simpa [firstRuntimeErr] using hm
      obtain ⟨vs, hvs⟩ := getVals_ok acc fs (by simpa [Node.children] using hbl)
      have hv : evalNode ins acc (Node.lit t fs) = Except.ok (Value.lit t vs) := by
        simp [evalNode, hvs]
      rw [evalNodesAux, hv]
      exact ih (acc ++ [Value.lit t vs]) m (hb2' _) hm'
    | ident co j t =>
      have hm' : firstRuntimeErr ns = some m := by
        simpa [firstRuntimeErr] using hm
      obtain ⟨v, hv⟩ := evalNode_ok ins acc (Node.ident co j t) hbl rfl
      rw [evalNodesAux, hv]
      exact ih (acc ++ [v]) m (hb2' _) hm'

/-- A successful resolution carries the descriptor's declared error flag
into the plan signature. -/
theorem resolve_errFlag (idx : Index) (f : DI.Function) (p : Plan)
    (hres : resolve idx f = Except.ok p) :
    p.hasErrorResult = f.results.contains Dep.err := by
  unfold resolve at hres
  split at hres
  · simp at hres
  · split at hres
    · simp at hres
    · split at hres <;>
        · simp only [Except.ok.injEq] at hres
          rw [← hres]

/-- Claim C1, counterexample: in the TestInterfaceInput scenario the
demand is the interface `app.com/web.Log`, the aliases map is empty and no
external input matches, yet resolution succeeds by calling the constructor
`Default` of the interface's own package — it does not fail with the
unclear-how-to-provide error, contradicting the claim that an interface
demand resolves only through an alias entry. -/
theorem c1_counterexample :
    ifaceInputFn.aliases = [] ∧
    ifaceInputFn.params = [] ∧
    (∃ pk, lookupPkg ifaceInputIdx "app.com/web" = some pk ∧
      isIface pk ⟨"app.com/web", "Log", false⟩ = true) ∧
    resolve ifaceInputIdx ifaceInputFn = Except.ok ifaceInputPlan ∧
    ifaceInputPlan.nodes =
      [Node.call defaultCtor [] ⟨"app.com/web", "Log", false⟩] ∧
    resolve ifaceInputIdx ifaceInputFn ≠
      Except.error (unclearMsg ⟨"app.com/web", "Log", false⟩) := by
  refine ⟨rfl, rfl, ⟨_, rfl, rfl⟩, rfl, rfl, ?_⟩
  intro hcon
  rw [show resolve ifaceInputIdx ifaceInputFn = Except.ok ifaceInputPlan from rfl]
    at hcon
  simp at hcon

/-- Claim C1, amended: an interface demand not satisfied by an external
input resolves when the aliases map has an entry for it (TestV8Alias) or
when the interface's own package has a constructor whose first result type
is the interface (TestInterfaceInput); when neither exists, resolution
fails with the unclear-how-to-provide error (TestInterfaceErrorUnclear). -/
theorem c1_interface_resolution :
    resolve ifaceInputIdx ifaceInputFn =
      Except.ok ⟨[Node.call defaultCtor [] ⟨"app.com/web", "Log", false⟩],
        [0], [], [], false⟩ ∧
    resolve v8AliasIdx v8AliasFn = Except.ok v8AliasPlan ∧
    v8AliasPlan.nodes =
      [Node.call v8LoadCtor [] ⟨"app.com/js/v8", "VM", true⟩,
       Node.call webLoadCtor [0] ⟨"app.com/web", "Controller", true⟩] ∧
    resolve unclearIdx (unclearFn []) = Except.error unclearVM :=
  ⟨rfl, rfl, rfl, rfl⟩

/-- Claim C2: demanding the interface `app.com/js.VM` with an empty
aliases map, no matching external input and no constructor assignable to
it fails with exactly the pinned error string, and no plan is produced.
The parameter list is arbitrary as long as it offers no type from the two
involved packages. -/
theorem c2_unclear_error (ps : List Param)
    (h : ∀ q ∈ ps, q.imp ≠ "app.com/js" ∧ q.imp ≠ "app.com/web") :
    resolve unclearIdx (unclearFn ps) = Except.error unclearVM ∧
    unclearVM = "di: unclear how to provide " ++ sq ++ "app.com/js" ++ sq ++ ".VM" ∧
    ∀ p, resolve unclearIdx (unclearFn ps) ≠ Except.ok p := by
  have h1 : findParam ps ⟨"app.com/web", "Controller", true⟩ = none := by
    apply findParamFrom_eq_none
    intro q hq heq
    exact (h q hq).2 (congrArg TypeRef.imp heq)
  have h2 : findParam ps ⟨"app.com/js", "VM", false⟩ = none := by
    apply findParamFrom_eq_none
    intro q hq heq
    exact (h q hq).1 (congrArg TypeRef.imp heq)
  refine ⟨resolve_unclear ps h1 h2, rfl, ?_⟩
  intro p hcon
  rw [resolve_unclear ps h1 h2] at hcon
  simp at hcon

/-- Witness for C2 at the concrete descriptor of the pinned test (empty
parameter list). -/
theorem c2_unclear_error_witness :
    resolve unclearIdx (unclearFn []) = Except.error unclearVM ∧
    unclearVM = "di: unclear how to provide " ++ sq ++ "app.com/js" ++ sq ++ ".VM" :=
  ⟨(c2_unclear_error [] (by simp)).1, (c2_unclear_error [] (by simp)).2.1⟩

/-- Claim C3, counterexample: in the TestHoistable scenario the `LoadDB`
provider (node 1) transitively reaches the hoist-tagged `context.Context`
parameter, yet the hoist analysis replaces it by a hoisted input and the
emitted signature receives it before the surviving request parameter — it
is not built inside the function body as the claim states. -/
theorem c3_counterexample :
    resolve hoistableIdx hoistableFn = Except.ok hoistablePlan ∧
    hoistablePre.nodes.get? 1 =
      some (Node.call loadDBCtor [0] ⟨"app.com/web", "DB", true⟩) ∧
    reachesParamTag hoistableParams hoistablePre.nodes 10 1 true = true ∧
    hoistablePlan.nodes.get? 1 =
      some (Node.hoisted ⟨"app.com/web", "DB", true⟩) ∧
    hoistablePlan.emittedParams =
      [⟨"app.com/web", "DB", true⟩, ⟨"app.com/web", "Request", true⟩] :=
  ⟨rfl, rfl, rfl, rfl, rfl⟩

/-- Claim C3, amended: with the descriptor's hoist flag set, a provider
node consumed by the residual body is replaced by a hoisted input (with a
parameter added in front of the surviving original parameters) if and only
if none of its transitive dependencies reach a params entry tagged
hoist=false (a request-scoped input); every node whose transitive
dependencies reach a hoist=false param stays in the generated body.
Checked over every node of the TestHoistable and TestHoistFull arenas,
together with the emitted signatures the tests pin. -/
theorem c3_hoist_rule :
    hoistCheck hoistableParams hoistablePre.nodes hoistablePlan.nodes = true ∧
    hoistCheck hoistFullParams hoistFullPre.nodes hoistFullPlan.nodes = true ∧
    hoistablePlan.emittedParams = hoistablePlan.hoistedTypes ++
      (hoistableParams.filter (fun q => !q.hoist)).map Param.typeRef ∧
    hoistFullPlan.emittedParams = hoistFullPlan.hoistedTypes ++
      (hoistFullParams.filter (fun q => !q.hoist)).map Param.typeRef ∧
    hoistFullPlan.hoistedTypes =
      [⟨"app.com/web", "Log", true⟩, ⟨"app.com/web", "Postgres", true⟩,
       ⟨"app.com/web", "Workflow", true⟩] :=
  ⟨rfl, rfl, rfl, rfl, rfl⟩

/-- Claim C4: when a candidate's result pointer depth differs from the
demand by one, the resolver wraps the candidate in an identity coercion —
deref when the constructor returns `*T` and the demand is `T`
(TestFunctionNeedsDeref), take-address in the converse case
(TestFunctionNeedsPointer) — every identity node in both plans differs by
exactly one pointer level in the matching direction, and the
coercion-wrapped constructor is chosen: no struct literal is synthesized
although the `Middleware` and `Web` struct declarations exist. -/
theorem c4_pointer_coercion :
    resolve derefIdx webOnlyFn = Except.ok derefPlan ∧
    derefPlan.nodes =
      [Node.call middlewaresPtrCtor [] ⟨"app.com/web", "Middleware", true⟩,
       Node.ident Coerce.deref 0 ⟨"app.com/web", "Middleware", false⟩,
       Node.call newWebDerefCtor [1] ⟨"app.com/web", "Web", true⟩] ∧
    resolve ptrIdx webOnlyFn = Except.ok ptrPlan ∧
    ptrPlan.nodes =
      [Node.call middlewaresValCtor [] ⟨"app.com/web", "Middleware", false⟩,
       Node.ident Coerce.takeAddr 0 ⟨"app.com/web", "Middleware", true⟩,
       Node.call newWebPtrCtor [1] ⟨"app.com/web", "Web", true⟩] ∧
    identOk derefPlan.nodes = true ∧ identOk ptrPlan.nodes = true ∧
    hasLit derefPlan.nodes = false ∧ hasLit ptrPlan.nodes = false :=
  ⟨rfl, rfl, rfl, rfl, rfl, rfl, rfl, rfl⟩

/-- Claim C5: memoization is keyed by the full resolved type reference.
In the shared scenario the `env.Env` demand reached along two paths yields
exactly one provider node, consumed by both the `log` and `db`
constructors; in the TestDuplicates scenario the two `Comment` types from
distinct packages with the same base name yield two distinct nodes. -/
theorem c5_memoization :
    resolve sharedIdx webOnlyFn = Except.ok sharedPlan ∧
    countKey sharedPlan.nodes ("app.com/env", "Env") = 1 ∧
    sharedPlan.nodes.get? 1 =
      some (Node.call logNewCtor [0] ⟨"app.com/log", "Log", true⟩) ∧
    sharedPlan.nodes.get? 2 =
      some (Node.call dbNewCtor [0, 1] ⟨"app.com/db", "DB", true⟩) ∧
    parentsOf sharedPlan.nodes 0 = 2 ∧
    resolve dupIdx dupFn = Except.ok dupPlan ∧
    countName dupPlan.nodes "Comment" = 2 ∧
    dupPlan.nodes.get? 0 =
      some (Node.call comments1Ctor [] ⟨"app.com/comments", "Comment", true⟩) ∧
    dupPlan.nodes.get? 1 =
      some (Node.call comments2Ctor [] ⟨"app.com/posts/comments", "Comment", true⟩) :=
  ⟨rfl, rfl, rfl, rfl, rfl, rfl, rfl, rfl, rfl⟩

/-- Claim C6: when the descriptor's results declare an error but no node
of the resolved graph can fail, the plan keeps the declared error result
in its signature and evaluating the generated function returns a value
with a nil error. -/
theorem c6_nil_error (idx : Index) (f : DI.Function) (p : Plan) (ins : Nat → Value)
    (hres : resolve idx f = Except.ok p)
    (herr : f.results.contains Dep.err = true)
    (hwf : wfNodes p.nodes = true)
    (hcons : runtimeConsistent p.nodes = true)
    (hroot : ∃ r, p.roots.head? = some r ∧ r < p.nodes.length)
    (hne : p.nodes.all (fun n => !(Node.hasErr n)) = true) :
    p.hasErrorResult = true ∧ ∃ v, evalPlan ins p = Except.ok v := by
  constructor
  · rw [resolve_errFlag idx f p hres, herr]
  · have hnf : ∀ n ∈ p.nodes, notFailing n = true := by
      intro n hn
      have h1 := List.all_eq_true.mp (by simpa [runtimeConsistent] using hcons) n hn
      have h2 := List.all_eq_true.mp hne n hn
      cases n with
      | call c args t =>
        have hce : c.hasError = false := by
          simpa [Node.hasErr, Bool.not_eq_true'] using h2
        cases hre : c.runtimeErr with
        | some m => simp [hre, hce] at h1
        | none => simp [notFailing, hre]
      | ext k t => rfl
      | lit t fs => rfl
      | ident co j t => rfl
      | hoisted t => rfl
    obtain ⟨vs, hvs, hlen⟩ :=
      evalAux_ok ins p.nodes [] (by simpa [wfNodes] using hwf) hnf
    obtain ⟨r, hr, hrl⟩ := hroot
    have hrv : r < vs.length := by simp at hlen; omega
    have hg : vs[r]? = some vs[r] := List.getElem?_eq_getElem hrv
    exact ⟨vs[r], by simp [evalPlan, hvs, hr, hg]⟩

/-- Witness for C6 at the TestErrorResultNoError scenario: the descriptor
declares an error result, `web.New` cannot fail, the plan keeps the error
result and evaluation succeeds. -/
theorem c6_nil_error_witness :
    noErrPlan.hasErrorResult = true ∧ ∃ v, evalPlan extIns noErrPlan = Except.ok v :=
  c6_nil_error noErrIdx noErrFn noErrPlan extIns rfl rfl rfl rfl
    ⟨0, rfl, by decide⟩ rfl

/-- Claim C7: when the descriptor declares an error result and a
constructor of the resolved graph returns a non-nil error at runtime, the
generated function returns that constructor's error verbatim: for any
well-formed plan, evaluation returns exactly the stored error message of
the first failing constructor, unwrapped and unmodified. -/
theorem c7_error_verbatim (p : Plan) (ins : Nat → Value) (m : String)
    (hwf : wfNodes p.nodes = true)
    (hm : firstRuntimeErr p.nodes = some m) :
    evalPlan ins p = Except.error (EvalErr.goErr m) := by
  have h := evalAux_err ins p.nodes [] m (by simpa [wfNodes] using hwf) hm
  simp [evalPlan, h]

/-- Witness for C7 at the TestFunctionHasError scenario: the failing
`env.New` constructor sits two levels below the root and its error string
is returned verbatim. -/
theorem c7_error_verbatim_witness :
    wfNodes hasErrPlan.nodes = true ∧
    firstRuntimeErr hasErrPlan.nodes = some envErrMsg ∧
    evalPlan extIns hasErrPlan = Except.error (EvalErr.goErr envErrMsg) :=
  ⟨rfl, rfl, c7_error_verbatim hasErrPlan extIns envErrMsg rfl rfl⟩

/-- Claim C8: a method declared on a receiver is never selected as a
constructor even though its result type matches the demand; with both the
receiver method `(*Package).Parser` and the plain function `New` present,
the plan calls `New` and contains no call to any receiver method. -/
theorem c8_skip_methods :
    parserMethod.recv = some "Package" ∧
    parserMethod.result = some ⟨"app.com/parser", "Parser", true⟩ ∧
    (∃ pk, lookupPkg skipIdx "app.com/parser" = some pk ∧
      parserMethod ∈ pk.funcs) ∧
    resolve skipIdx skipFn = Except.ok skipPlan ∧
    skipPlan.nodes =
      [Node.call parserNewCtor [] ⟨"app.com/parser", "Parser", true⟩] ∧
    skipPlan.nodes.all (fun n =>
      match n with
      | Node.call c _ _ => c.recv == none
      | _ => true) = true :=
  ⟨rfl, rfl, ⟨_, rfl, List.mem_cons_self _ _⟩, rfl, rfl, rfl⟩

/-- Claim C9: for every log argument, `budhttp.Try` with an empty address
returns the discard client and a nil error regardless of the loader (so no
URL is parsed and no transport is created), and for every non-empty
address it returns exactly the result of `budhttp.Load` on that address. -/
theorem c9_try (lg : Budhttp.Log)
    (load : Budhttp.Log → String → Except Budhttp.GoError Budhttp.Client)
    (addr : String) :
    (addr = "" → Budhttp.Try lg load addr = Except.ok Budhttp.Client.discard) ∧
    (addr ≠ "" → Budhttp.Try lg load addr = load lg addr) := by
  constructor
  · intro h; simp [Budhttp.Try, h]
  · intro h; simp [Budhttp.Try, h]

/-- Witness for C9 at concrete addresses with a stand-in loader. -/
theorem c9_try_witness :
    Budhttp.Try ⟨0⟩ Budhttp.loadStub "" = Except.ok Budhttp.Client.discard ∧
    Budhttp.Try ⟨0⟩ Budhttp.loadStub "http" = Budhttp.loadStub ⟨0⟩ "http" :=
  ⟨(c9_try ⟨0⟩ Budhttp.loadStub "").1 rfl,
   (c9_try ⟨0⟩ Budhttp.loadStub "http").2 (by decide)⟩

/-- Claim C10: a 404 response to `Open` yields a nil file and an error
wrapping `fs.ErrNotExist`; any other non-200 status yields an error that
does not wrap `fs.ErrNotExist`; and a file is only produced for a 200
response. -/
theorem c10_open_status (um : String → Except Budhttp.GoError Budhttp.File)
    (name : String) (res : Budhttp.Response) :
    (res.status = 404 →
      ∃ e, Budhttp.Open um name res = Except.error e ∧
        Budhttp.errorIsNotExist e = true) ∧
    (res.status ≠ 200 → res.status ≠ 404 →
      ∃ e, Budhttp.Open um name res = Except.error e ∧
        Budhttp.errorIsNotExist e = false) ∧
    (∀ fl, Budhttp.Open um name res = Except.ok fl → res.status = 200) := by
  refine ⟨?_, ?_, ?_⟩
  · intro h404
    refine ⟨⟨"budhttp: open " ++ Budhttp.quoteStr name ++ ". " ++
      Budhttp.fsErrNotExist.msg, some Budhttp.Sentinel.errNotExist⟩, ?_, rfl⟩
    simp [Budhttp.Open, h404]
  · intro h200 h404
    refine ⟨⟨"budhttp: open returned unexpected " ++ toString res.status ++ ". " ++
      res.body, none⟩, ?_, rfl⟩
    rw [Budhttp.Open, if_pos h200, if_neg h404]
  · intro fl hok
    by_cases h200 : res.status = 200
    · exact h200
    · rw [Budhttp.Open, if_pos h200] at hok
      split at hok <;> simp at hok

/-- Witness for C10 at concrete 404, 500 and 200 responses with a
stand-in decoder. -/
theorem c10_open_status_witness :
    (∃ e, Budhttp.Open Budhttp.umStub "view.js" ⟨404, ""⟩ = Except.error e ∧
      Budhttp.errorIsNotExist e = true) ∧
    (∃ e, Budhttp.Open Budhttp.umStub "view.js" ⟨500, "oops"⟩ = Except.error e ∧
      Budhttp.errorIsNotExist e = false) ∧
    (∀ fl, Budhttp.Open Budhttp.umStub "view.js" ⟨200, "c"⟩ = Except.ok fl →
      (⟨200, "c"⟩ : Budhttp.Response).status = 200) :=
  ⟨(c10_open_status Budhttp.umStub "view.js" ⟨404, ""⟩).1 rfl,
   (c10_open_status Budhttp.umStub "view.js" ⟨500, "oops"⟩).2.1 (by decide) (by decide),
   (c10_open_status Budhttp.umStub "view.js" ⟨200, "c"⟩).2.2⟩
